import Mathlib

set_option maxHeartbeats 1000000

/-!
Verification development for the vocabulary-learning CLI in `src/main.py`.

Modelling conventions:
* Python floats are modelled as exact rationals (`ℚ`).
* The topics directory is modelled as a map `Store` from topic name to the
  optional content of that topic backing file; `none` means the file does
  not exist.  File content is either decodable JSON (modelled structurally)
  or `invalid` (unreadable or undecodable bytes, the situation handled by
  the `except (FileNotFoundError, json.JSONDecodeError)` clause).
* Interactive `input()` calls are modelled by passing the lines the code
  would read as explicit arguments.
* Functions that can raise an uncaught Python exception return `Except`.
-/

/-- Whitespace characters recognised by Python `str.strip` and `str.split`
(ASCII subset), identified by code point: space, tab, newline, carriage
return, vertical tab, form feed. -/
def pySpace (c : Char) : Bool :=
  c.toNat = 32 || c.toNat = 9 || c.toNat = 10 || c.toNat = 13 ||
    c.toNat = 11 || c.toNat = 12

/-- Lowercasing of a single character, as Python `str.lower` acts on
ASCII: code points 65-90 shift up by 32. -/
def pyLowerChar (c : Char) : Char :=
  if 65 ≤ c.toNat ∧ c.toNat ≤ 90 then Char.ofNat (c.toNat + 32) else c

/-- Python `str.lower` on a list of characters. -/
def pyLowerL (l : List Char) : List Char := l.map pyLowerChar

/-- Python `str.lower`. -/
def pyLowerS (s : String) : String := String.mk (pyLowerL s.data)

/-- Python `str.strip` on a list of characters. -/
def pyStripL (l : List Char) : List Char :=
  ((l.dropWhile pySpace).reverse.dropWhile pySpace).reverse

/-- Python `str.strip` (no argument form). -/
def pyStripS (s : String) : String := String.mk (pyStripL s.data)

/-- Helper for Python `str.split` (no argument form): split on whitespace
runs, never producing empty words.  `acc` holds the current word reversed. -/
def pyWordsAux : List Char → List Char → List (List Char)
  | [], acc => if acc.isEmpty then [] else [acc.reverse]
  | c :: cs, acc =>
    if pySpace c then
      if acc.isEmpty then pyWordsAux cs [] else acc.reverse :: pyWordsAux cs []
    else pyWordsAux cs (c :: acc)

/-- Python `str.split` (no argument form). -/
def pyWordsS (s : String) : List String := (pyWordsAux s.data []).map String.mk

/-- The dataclass `VocabularyItem` (`src/main.py` lines 17-31).  The dataclass
defaults (`contexts=[]`, `memorization=0`) are applied in
`mkVocabularyItem`. -/
structure VocabularyItem where
  word : String
  translation : String
  contexts : List String
  memorization : ℚ
deriving DecidableEq

/-- A structural model of decoded JSON documents. -/
inductive Json where
  | null
  | bool (b : Bool)
  | num (q : ℚ)
  | str (s : String)
  | arr (elems : List Json)
  | obj (fields : List (String × Json))

/-- Content of an existing topic backing file: decodable JSON, or bytes on
which `json.load` raises `JSONDecodeError` (also covering the file
vanishing between the existence check and the read). -/
inductive FileContent where
  | invalid
  | json (j : Json)

/-- The topics directory: maps a topic name to the content of the file
`<topics-dir>/<topic>.json`, or `none` when that file does not exist. -/
def Store := String → Option FileContent

/-- The Python exceptions that the modelled code can raise and not catch. -/
inductive PyErr where
  | typeError
deriving DecidableEq

/-- The field names accepted by the `VocabularyItem` dataclass constructor. -/
def fieldNames : List String := ["word", "translation", "contexts", "memorization"]

/-- Lookup of a key in a decoded JSON object. -/
def lookupField (fields : List (String × Json)) (k : String) : Option Json :=
  (fields.find? (fun kv => kv.1 == k)).map (fun kv => kv.2)

/-- Reading a JSON value as the `word`/`translation` string field. -/
def asString : Json → String
  | .str s => s
  | _ => ""

/-- Reading a JSON value as the `contexts` list-of-strings field. -/
def asStringList : Json → List String
  | .arr xs => xs.map asString
  | _ => []

/-- Reading a JSON value as the `memorization` numeric field. -/
def asNum : Json → ℚ
  | .num q => q
  | _ => 0

/-- Models `VocabularyItem(**item)` (`src/main.py` line 86): raises
`TypeError` on a non-mapping argument, on an unexpected keyword argument and
on a missing required argument (`word`, `translation`); `contexts` and
`memorization` take the dataclass defaults when absent. -/
def mkVocabularyItem : Json → Except PyErr VocabularyItem
  | .obj fields =>
    if fields.all (fun kv => fieldNames.contains kv.1) then
      match lookupField fields "word", lookupField fields "translation" with
      | some w, some tr =>
        .ok { word := asString w
              translation := asString tr
              contexts :=
                match lookupField fields "contexts" with
                | some c => asStringList c
                | none => []
              memorization :=
                match lookupField fields "memorization" with
                | some m => asNum m
                | none => 0 }
      | _, _ => .error .typeError
    else .error .typeError
  | _ => .error .typeError

/-- Models Python iteration over the decoded document (`for item in data`):
lists yield their elements, dicts their keys, strings their characters;
other values raise `TypeError`. -/
def pyIterElems : Json → Except PyErr (List Json)
  | .arr xs => .ok xs
  | .obj fields => .ok (fields.map (fun kv => Json.str kv.1))
  | .str s => .ok (s.data.map (fun c => Json.str (String.mk [c])))
  | _ => .error .typeError

/-- The list comprehension `[VocabularyItem(**item) for item in data]`:
stops at the first element that raises. -/
def parseItemsList : List Json → Except PyErr (List VocabularyItem)
  | [] => .ok []
  | j :: rest =>
    match mkVocabularyItem j with
    | .error e => .error e
    | .ok it =>
      match parseItemsList rest with
      | .error e => .error e
      | .ok its => .ok (it :: its)

/-- The ordering used by `items.sort(key=lambda x: x.memorization,
reverse=True)`: `a` may come before `b` iff the score of `a` is at least the score of `b`. -/
def memGe (a b : VocabularyItem) : Prop := b.memorization ≤ a.memorization

instance : DecidableRel memGe :=
  fun a b => inferInstanceAs (Decidable (b.memorization ≤ a.memorization))

instance : IsTotal VocabularyItem memGe :=
  ⟨fun a b => le_total b.memorization a.memorization⟩

instance : IsTrans VocabularyItem memGe :=
  ⟨fun _ _ _ h1 h2 => le_trans h2 h1⟩

/-- The stable descending sort performed by `load_vocabulary_items`
(Python `list.sort` is stable, also with `reverse=True`). -/
def sortByMemDesc (l : List VocabularyItem) : List VocabularyItem :=
  List.insertionSort memGe l

/-- Models `VocabularyFilesManager.check_topic_existence`. -/
def check_topic_existence (s : Store) (t : String) : Bool := (s t).isSome

/-- Models `VocabularyFilesManager.load_vocabulary_items`, as a function of the
content of the topic backing file. -/
def loadContent : Option FileContent → Except PyErr (Option (List VocabularyItem))
  | none => .ok none
  | some .invalid => .ok (some (sortByMemDesc []))
  | some (.json j) =>
    match pyIterElems j with
    | .error e => .error e
    | .ok elems =>
      match parseItemsList elems with
      | .error e => .error e
      | .ok items => .ok (some (sortByMemDesc items))

/-- Models `VocabularyFilesManager.load_vocabulary_items` (`src/main.py` 64-88). -/
def load_vocabulary_items (s : Store) (t : String) :
    Except PyErr (Option (List VocabularyItem)) :=
  loadContent (s t)

/-- Models `asdict(item)` as serialised by `json.dump`. -/
def serializeItem (it : VocabularyItem) : Json :=
  .obj [("word", .str it.word), ("translation", .str it.translation),
        ("contexts", .arr (it.contexts.map Json.str)),
        ("memorization", .num it.memorization)]

/-- Writing one file in the topics directory. -/
def updateStore (s : Store) (t : String) (c : FileContent) : Store :=
  fun u => if u = t then some c else s u

/-- Models `VocabularyFilesManager.dump_vocabulary_items` (`src/main.py` 90-109);
the second component records the file writes actually performed. -/
def dump_vocabulary_items (s : Store) (t : String) (items : List VocabularyItem) :
    Store × List (String × List VocabularyItem) :=
  match s t with
  | none => (s, [])
  | some _ =>
    (updateStore s t (.json (.arr (items.map serializeItem))), [(t, items)])

/-- Models `VocabularyFilesManager.add_item_to_topic` (`src/main.py` 111-120);
`items = self.load_vocabulary_items(topic) or []`. -/
def add_item_to_topic (s : Store) (t : String) (item : VocabularyItem) :
    Except PyErr (Store × List (String × List VocabularyItem)) :=
  match load_vocabulary_items s t with
  | .error e => .error e
  | .ok lopt => .ok (dump_vocabulary_items s t (lopt.getD [] ++ [item]))

/-- Outcome reported by `Application.create_topic`. -/
inductive CreateResult where
  | validationError
  | alreadyExists
  | created
deriving DecidableEq

/-- Models `Application.create_topic` (`src/main.py` 149-177).  Filesystem failures
of `os.makedirs`/`open` (caught and reported in the source) are outside the
pure model. -/
def create_topic (s : Store) (t : String) : Store × CreateResult :=
  if pyStripS t = "" then (s, .validationError)
  else if check_topic_existence s t then (s, .alreadyExists)
  else (updateStore s t (.json (.arr [])), .created)

/-- Outcome reported by `Application.add_item`. -/
inductive AddResult where
  | notFound
  | emptyWord
  | emptyTranslation
  | added
deriving DecidableEq

/-- The context-collection loop `while context := input("> ").strip()`:
consumes prompted lines, stripped, until the first one that strips to
empty.  The argument list holds the lines the loop would read. -/
def collectContexts (lines : List String) : List String :=
  (lines.map pyStripS).takeWhile (fun c => c != "")

/-- Models `Application.add_item` (`src/main.py` 179-211).  `wordLine`, `transLine`
and `ctxLines` are the interactive input lines consumed by the function. -/
def add_item (s : Store) (t : String) (wordLine transLine : String)
    (ctxLines : List String) : Except PyErr (Store × AddResult) :=
  if !check_topic_existence s t then .ok (s, .notFound)
  else if pyStripS wordLine = "" then .ok (s, .emptyWord)
  else if pyStripS transLine = "" then .ok (s, .emptyTranslation)
  else
    match add_item_to_topic s t
        ⟨pyStripS wordLine, pyStripS transLine, collectContexts ctxLines, 0⟩ with
    | .error e => .error e
    | .ok (s2, _) => .ok (s2, .added)

/-- Outcome reported by `Application.vocabulary_test`. -/
inductive QuizResult where
  | notFound
  | empty
  | completed
deriving DecidableEq

/-- One quiz step (`src/main.py` 236-244): the raw answer line is compared
for string equality with the stored translation lowercased, and the score
moves by one tenth, clamped to `[0, 1]`. -/
def applyAnswer (item : VocabularyItem) (ans : String) : VocabularyItem :=
  if ans = pyLowerS item.translation then
    { item with memorization := min 1 (item.memorization + 1/10) }
  else
    { item with memorization := max 0 (item.memorization - 1/10) }

/-- The quiz loop `for index, item in enumerate(items)` with its in-place
updates `items[index].memorization = ...`; `answers i` is the answer line
read for the item at position `i`. -/
def updateItems (answers : ℕ → String) : ℕ → List VocabularyItem → List VocabularyItem
  | _, [] => []
  | i, it :: rest => applyAnswer it (answers i) :: updateItems answers (i + 1) rest

/-- Models `Application.vocabulary_test` (`src/main.py` 213-247).  The middle
component of the result records the file writes performed. -/
def vocabulary_test (s : Store) (t : String) (answers : ℕ → String) :
    Except PyErr (Store × List (String × List VocabularyItem) × QuizResult) :=
  if !check_topic_existence s t then .ok (s, [], .notFound)
  else
    match load_vocabulary_items s t with
    | .error e => .error e
    | .ok lopt =>
      if lopt.getD [] = [] then .ok (s, [], .empty)
      else
        .ok ((dump_vocabulary_items s t (updateItems answers 0 (lopt.getD []))).1,
             (dump_vocabulary_items s t (updateItems answers 0 (lopt.getD []))).2,
             .completed)

/-- The command recognised by `Application.handle_user_input`. -/
inductive Command where
  | empty
  | create (t : String)
  | addTo (t : String)
  | quiz (t : String)
  | top
  | help
  | exitApp
  | invalid
deriving DecidableEq

/-- The dispatch chain of `Application.handle_user_input` (`src/main.py`
282-296): each topic-taking command requires a non-empty argument list
(`cmd == "cr" and args`), otherwise control falls through to the final
`else` branch. -/
def dispatch : List String → Command
  | [] => .empty
  | cmd :: args =>
    match cmd, args with
    | "cr", a :: _ => .create a
    | "add", a :: _ => .addTo a
    | "voc", a :: _ => .quiz a
    | "top", _ => .top
    | "help", _ => .help
    | "exit", _ => .exitApp
    | _, _ => .invalid

/-- Parsing in `Application.handle_user_input` (`src/main.py` 272-281):
`input("> ").strip().lower()`, early return on the empty string, then
`split()`. -/
def parseCommand (line : String) : Command :=
  if pyLowerS (pyStripS line) = "" then .empty
  else dispatch (pyWordsS (pyLowerS (pyStripS line)))

/-- The message printed by `handle_user_input` itself (the messages of the
invoked operations are modelled with their own result types).  The
`except IndexError` handler message is unreachable because every `args[0]`
access is guarded by an `and args` test. -/
def handle_user_input_msg (line : String) : Option String :=
  match parseCommand line with
  | .invalid => some "Invalid command. Type \x27help\x27 for options."
  | _ => none

instance instDecEqExcept {ε α : Type} [DecidableEq ε] [DecidableEq α] :
    DecidableEq (Except ε α) := fun a b =>
  match a, b with
  | .error e, .error f =>
    match decEq e f with
    | isTrue h => isTrue (congrArg Except.error h)
    | isFalse h => isFalse (fun hh => h (Except.error.inj hh))
  | .ok x, .ok y =>
    match decEq x y with
    | isTrue h => isTrue (congrArg Except.ok h)
    | isFalse h => isFalse (fun hh => h (Except.ok.inj hh))
  | .error _, .ok _ => isFalse (fun hh => Except.noConfusion hh)
  | .ok _, .error _ => isFalse (fun hh => Except.noConfusion hh)

/-- The memorization score of an item lies in `[0, 1]`. -/
def itemOK (it : VocabularyItem) : Prop :=
  0 ≤ it.memorization ∧ it.memorization ≤ 1

/-- All memorization scores in a list lie in `[0, 1]`. -/
def itemsOK (l : List VocabularyItem) : Prop := ∀ it ∈ l, itemOK it

/-- Every topic of the store that loads successfully has all memorization
scores in `[0, 1]`. -/
def StoreOK (s : Store) : Prop :=
  ∀ t l, load_vocabulary_items s t = .ok (some l) → itemsOK l

/-- The store with no topic files. -/
def emptyStore : Store := fun _ => none

/-- The stored record of the spec example: topic "food", word "bread",
translation "pan", one context, memorization 0.3. -/
def foodItemJson : Json :=
  .obj [("word", .str "bread"), ("translation", .str "pan"),
        ("contexts", .arr [.str "I eat bread"]), ("memorization", .num (mkRat 3 10))]

/-- A store holding only the topic "food" with the spec example record. -/
def foodStore : Store :=
  fun u => if u = "food" then some (.json (.arr [foodItemJson])) else none

/-- Stored array with a tie on memorization (0.2 twice) in save order
b-a-c by score: used to exhibit sorting and stability. -/
def tieItemsJson : List Json :=
  [.obj [("word", .str "a"), ("translation", .str "ta"),
         ("contexts", .arr []), ("memorization", .num (mkRat 2 10))],
   .obj [("word", .str "b"), ("translation", .str "tb"),
         ("contexts", .arr []), ("memorization", .num (mkRat 5 10))],
   .obj [("word", .str "c"), ("translation", .str "tc"),
         ("contexts", .arr []), ("memorization", .num (mkRat 2 10))]]

/-- The parsed form of `tieItemsJson`, in save order. -/
def tieItems : List VocabularyItem :=
  [⟨"a", "ta", [], mkRat 2 10⟩, ⟨"b", "tb", [], mkRat 5 10⟩,
   ⟨"c", "tc", [], mkRat 2 10⟩]

/-- A store holding the tie example under topic "animals". -/
def tieStore : Store :=
  fun u => if u = "animals" then some (.json (.arr tieItemsJson)) else none

/-- A store whose topic "broken" exists but holds undecodable content. -/
def brokenStore : Store :=
  fun u => if u = "broken" then some .invalid else none

/-- A store whose topic "t" holds a record with the unknown key "note". -/
def unknownKeyStore : Store :=
  fun u =>
    if u = "t" then
      some (.json (.arr [.obj [("word", .str "a"), ("translation", .str "b"),
                               ("note", .str "x")]]))
    else none

/-- A store whose topic "t" holds a record missing the required key
"translation". -/
def missingKeyStore : Store :=
  fun u => if u = "t" then some (.json (.arr [.obj [("word", .str "a")]])) else none

/-- A store whose topic "t" holds a record missing only the optional keys
"contexts" and "memorization". -/
def optionalKeyStore : Store :=
  fun u =>
    if u = "t" then
      some (.json (.arr [.obj [("word", .str "a"), ("translation", .str "b")]]))
    else none

/-- A store in which the whitespace-only topic name " " has a backing
file. -/
def blankNameStore : Store :=
  fun u => if u = " " then some (.json (.arr [])) else none

/-- Two-item store for the quiz write-order example: descending scores
0.5 then 0.45. -/
def quizItems : List VocabularyItem :=
  [⟨"w1", "t1", [], mkRat 5 10⟩, ⟨"w2", "t2", [], mkRat 45 100⟩]

/-- A store holding `quizItems` under topic "q". -/
def quizStore : Store :=
  fun u => if u = "q" then some (.json (.arr (quizItems.map serializeItem))) else none

/-- Answers for the quiz example: wrong for item 0, right for item 1, so
the new scores (0.4, 0.55) are no longer in descending order. -/
def quizAnswers : ℕ → String := fun i => if i = 0 then "zzz" else "t2"

theorem toNat_ofNat_lower {n : ℕ} (h1 : 97 ≤ n) (h2 : n ≤ 122) :
    (Char.ofNat n).toNat = n := by
  have hv : n.isValidChar := Or.inl (by omega)
  rw [Char.ofNat, dif_pos hv]
  rfl

theorem pyLowerChar_idem (c : Char) : pyLowerChar (pyLowerChar c) = pyLowerChar c := by
  unfold pyLowerChar
  by_cases h : 65 ≤ c.toNat ∧ c.toNat ≤ 90
  · rw [if_pos h, if_neg]
    rw [toNat_ofNat_lower (by omega) (by omega)]
    omega
  · rw [if_neg h, if_neg h]

theorem pySpace_pyLowerChar (c : Char) : pySpace (pyLowerChar c) = pySpace c := by
  unfold pyLowerChar pySpace
  by_cases h : 65 ≤ c.toNat ∧ c.toNat ≤ 90
  · rw [if_pos h]
    rw [toNat_ofNat_lower (by omega) (by omega)]
    rw [Bool.eq_iff_iff]
    simp only [Bool.or_eq_true, decide_eq_true_eq]
    omega
  · rw [if_neg h]

theorem pyLowerL_idem (l : List Char) : pyLowerL (pyLowerL l) = pyLowerL l := by
  induction l with
  | nil => rfl
  | cons c cs ih =>
    simp only [pyLowerL, List.map_cons] at ih ⊢
    rw [pyLowerChar_idem, ih]

theorem dropWhile_pySpace_lower (l : List Char) :
    (l.map pyLowerChar).dropWhile pySpace = (l.dropWhile pySpace).map pyLowerChar := by
  induction l with
  | nil => rfl
  | cons c cs ih =>
    simp only [List.map_cons, List.dropWhile_cons, pySpace_pyLowerChar]
    by_cases h : pySpace c = true
    · simp [h, ih]
    · simp [h]

theorem pyStripL_lower_comm (l : List Char) :
    pyStripL (pyLowerL l) = pyLowerL (pyStripL l) := by
  simp only [pyStripL, pyLowerL, dropWhile_pySpace_lower, ← List.map_reverse]

theorem data_pyLowerS (s : String) : (pyLowerS s).data = pyLowerL s.data := rfl

theorem data_pyStripS (s : String) : (pyStripS s).data = pyStripL s.data := rfl

theorem pyStripS_lower_comm (s : String) :
    pyStripS (pyLowerS s) = pyLowerS (pyStripS s) := by
  simp only [pyStripS, pyLowerS, data_pyLowerS, data_pyStripS, pyStripL_lower_comm]

theorem pyLowerS_idem (s : String) : pyLowerS (pyLowerS s) = pyLowerS s := by
  simp only [pyLowerS, data_pyLowerS, pyLowerL_idem]

theorem pyLowerS_fixed_of_chars (s : String)
    (h : ∀ c ∈ s.data, pyLowerChar c = c) : pyLowerS s = s := by
  have : pyLowerL s.data = s.data := by
    simp only [pyLowerL]
    exact List.map_congr_left h |>.trans (List.map_id s.data)
  simp only [pyLowerS, this]

theorem pyWordsAux_chars_fixed (l acc : List Char)
    (hl : ∀ c ∈ l, pyLowerChar c = c) (hacc : ∀ c ∈ acc, pyLowerChar c = c) :
    ∀ w ∈ pyWordsAux l acc, ∀ c ∈ w, pyLowerChar c = c := by
  induction l generalizing acc with
  | nil =>
    intro w hw c hc
    simp only [pyWordsAux] at hw
    split at hw
    · simp at hw
    · simp only [List.mem_singleton] at hw
      subst hw
      exact hacc c (List.mem_reverse.mp hc)
  | cons a l ih =>
    intro w hw c hc
    have hl' : ∀ c ∈ l, pyLowerChar c = c := fun c hc => hl c (List.mem_cons_of_mem a hc)
    simp only [pyWordsAux] at hw
    split at hw
    · split at hw
      · exact ih [] hl' (by simp) w hw c hc
      · rcases List.mem_cons.mp hw with h | h
        · subst h
          exact hacc c (List.mem_reverse.mp hc)
        · exact ih [] hl' (by simp) w h c hc
    · refine ih (a :: acc) hl' ?_ w hw c hc
      intro d hd
      rcases List.mem_cons.mp hd with rfl | h
      · exact hl _ (List.mem_cons_self _ _)
      · exact hacc d h

theorem filter_orderedInsert_pos (p : VocabularyItem → Bool) (a : VocabularyItem)
    (l : List VocabularyItem) (hpa : p a = true)
    (h : ∀ b, ¬ memGe a b → p b = false) :
    (List.orderedInsert memGe a l).filter p = a :: l.filter p := by
  induction l with
  | nil => simp [List.orderedInsert, hpa]
  | cons b l ih =>
    by_cases hr : memGe a b
    · simp [List.orderedInsert, hr, hpa]
    · simp [List.orderedInsert, if_neg hr, h b hr, ih]

theorem filter_orderedInsert_neg (p : VocabularyItem → Bool) (a : VocabularyItem)
    (l : List VocabularyItem) (hpa : p a = false) :
    (List.orderedInsert memGe a l).filter p = l.filter p := by
  induction l with
  | nil => simp [List.orderedInsert, hpa]
  | cons b l ih =>
    by_cases hr : memGe a b
    · simp [List.orderedInsert, hr, hpa]
    · simp only [List.orderedInsert, if_neg hr, List.filter_cons, ih]

/-- Stability of the descending sort: the items holding any given
memorization score keep exactly the relative order they had. -/
theorem filter_sortByMemDesc (v : ℚ) (l : List VocabularyItem) :
    (sortByMemDesc l).filter (fun x => decide (x.memorization = v)) =
      l.filter (fun x => decide (x.memorization = v)) := by
  induction l with
  | nil => rfl
  | cons a l ih =>
    show (List.orderedInsert memGe a (sortByMemDesc l)).filter _ = _
    by_cases hv : a.memorization = v
    · rw [filter_orderedInsert_pos _ a _ (by simp [hv]) ?_, ih]
      · simp [hv]
      · intro b hb
        simp only [memGe, not_le] at hb
        simp only [decide_eq_false_iff_not]
        intro hbv
        rw [hv] at hb
        rw [hbv] at hb
        exact absurd hb (lt_irrefl v)
    · rw [filter_orderedInsert_neg _ a _ (by simp [hv]), ih]
      simp [hv]

theorem sorted_sortByMemDesc (l : List VocabularyItem) :
    (sortByMemDesc l).Sorted memGe :=
  List.sorted_insertionSort memGe l

theorem perm_sortByMemDesc (l : List VocabularyItem) :
    (sortByMemDesc l).Perm l :=
  List.perm_insertionSort memGe l

theorem map_asString_str (cs : List String) :
    (cs.map Json.str).map asString = cs := by
  induction cs with
  | nil => rfl
  | cons c cs ih => simp only [List.map_cons, asString, ih]

theorem mkVocabularyItem_serializeItem (it : VocabularyItem) :
    mkVocabularyItem (serializeItem it) = .ok it := by
  have h : mkVocabularyItem (serializeItem it) =
      .ok ⟨it.word, it.translation, (it.contexts.map Json.str).map asString,
           it.memorization⟩ := rfl
  rw [map_asString_str] at h
  exact h

theorem parseItemsList_serialized (l : List VocabularyItem) :
    parseItemsList (l.map serializeItem) = .ok l := by
  induction l with
  | nil => rfl
  | cons it l ih =>
    simp only [List.map_cons, parseItemsList, mkVocabularyItem_serializeItem, ih]

theorem loadContent_serialized (items : List VocabularyItem) :
    loadContent (some (.json (.arr (items.map serializeItem)))) =
      .ok (some (sortByMemDesc items)) := by
  simp only [loadContent, pyIterElems, parseItemsList_serialized]

theorem itemOK_applyAnswer (it : VocabularyItem) (a : String) (h : itemOK it) :
    itemOK (applyAnswer it a) := by
  obtain ⟨h0, h1⟩ := h
  unfold applyAnswer itemOK
  by_cases he : a = pyLowerS it.translation
  · rw [if_pos he]
    constructor
    · exact le_min (by norm_num) (by linarith)
    · exact min_le_left _ _
  · rw [if_neg he]
    constructor
    · exact le_max_left _ _
    · exact max_le (by norm_num) (by linarith)

theorem itemsOK_updateItems (answers : ℕ → String) (l : List VocabularyItem)
    (h : itemsOK l) : ∀ i, itemsOK (updateItems answers i l) := by
  induction l with
  | nil => intro i it hit; simp [updateItems] at hit
  | cons a l ih =>
    intro i it hit
    rcases List.mem_cons.mp hit with rfl | hmem
    · exact itemOK_applyAnswer a _ (h a (List.mem_cons_self _ _))
    · exact ih (fun b hb => h b (List.mem_cons_of_mem a hb)) (i + 1) it hmem

theorem itemsOK_sortByMemDesc (l : List VocabularyItem) (h : itemsOK l) :
    itemsOK (sortByMemDesc l) :=
  fun it hit => h it ((perm_sortByMemDesc l).subset hit)

theorem load_updateStore (s : Store) (t : String) (c : FileContent) (u : String) :
    load_vocabulary_items (updateStore s t c) u =
      if u = t then loadContent (some c) else load_vocabulary_items s u := by
  unfold load_vocabulary_items updateStore
  by_cases h : u = t
  · rw [if_pos h, if_pos h]
  · rw [if_neg h, if_neg h]

theorem StoreOK_updateStore_serialized (s : Store) (t : String)
    (items : List VocabularyItem) (hs : StoreOK s) (hit : itemsOK items) :
    StoreOK (updateStore s t (.json (.arr (items.map serializeItem)))) := by
  intro u l hl
  rw [load_updateStore] at hl
  by_cases h : u = t
  · rw [if_pos h, loadContent_serialized] at hl
    cases hl
    exact itemsOK_sortByMemDesc items hit
  · rw [if_neg h] at hl
    exact hs u l hl

theorem StoreOK_dump (s : Store) (t : String) (items : List VocabularyItem)
    (hs : StoreOK s) (hit : itemsOK items) :
    StoreOK (dump_vocabulary_items s t items).1 := by
  unfold dump_vocabulary_items
  cases hst : s t with
  | none => exact hs
  | some fc => exact StoreOK_updateStore_serialized s t items hs hit

theorem StoreOK_create_topic (s : Store) (t : String) (hs : StoreOK s) :
    StoreOK (create_topic s t).1 := by
  unfold create_topic
  by_cases h0 : pyStripS t = ""
  · rw [if_pos h0]; exact hs
  · rw [if_neg h0]
    by_cases h1 : check_topic_existence s t
    · rw [if_pos h1]; exact hs
    · rw [if_neg h1]
      have : ([] : List VocabularyItem).map serializeItem = [] := rfl
      intro u l hl
      rw [load_updateStore] at hl
      by_cases h : u = t
      · rw [if_pos h] at hl
        rw [← this, loadContent_serialized] at hl
        cases hl
        intro it hit
        simp [sortByMemDesc, List.insertionSort] at hit
      · rw [if_neg h] at hl
        exact hs u l hl

theorem load_isSome_of_ok_some (s : Store) (t : String) (l : List VocabularyItem)
    (h : load_vocabulary_items s t = .ok (some l)) : ∃ fc, s t = some fc := by
  unfold load_vocabulary_items at h
  cases hst : s t with
  | none => rw [hst] at h; exact absurd h (by simp [loadContent])
  | some fc => exact ⟨fc, rfl⟩

theorem StoreOK_add_item_to_topic (s : Store) (t : String) (item : VocabularyItem)
    (out : Store × List (String × List VocabularyItem))
    (hs : StoreOK s) (hit : itemOK item)
    (h : add_item_to_topic s t item = .ok out) : StoreOK out.1 := by
  unfold add_item_to_topic at h
  cases hload : load_vocabulary_items s t with
  | error e => rw [hload] at h; exact absurd h (by simp)
  | ok lopt =>
    rw [hload] at h
    cases h
    apply StoreOK_dump s t _ hs
    intro it2 hit2
    rcases List.mem_append.mp hit2 with hmem | hmem
    · cases lopt with
      | none => simp at hmem
      | some l0 => exact hs t l0 hload it2 hmem
    · rw [List.mem_singleton] at hmem
      rw [hmem]
      exact hit

theorem StoreOK_vocabulary_test (s : Store) (t : String) (answers : ℕ → String)
    (out : Store × List (String × List VocabularyItem) × QuizResult)
    (hs : StoreOK s) (h : vocabulary_test s t answers = .ok out) :
    StoreOK out.1 := by
  unfold vocabulary_test at h
  split at h
  · cases h; exact hs
  · split at h
    · exact absurd h (by simp)
    · rename_i lopt hload
      split at h
      · cases h; exact hs
      · cases h
        apply StoreOK_dump s t _ hs
        apply itemsOK_updateItems
        cases lopt with
        | none => exact fun it hit => absurd hit (by simp)
        | some l0 => exact hs t l0 hload

theorem StoreOK_add_item (s : Store) (t : String) (wordLine transLine : String)
    (ctxLines : List String) (out : Store × AddResult)
    (hs : StoreOK s) (h : add_item s t wordLine transLine ctxLines = .ok out) :
    StoreOK out.1 := by
  unfold add_item at h
  split at h
  · cases h; exact hs
  · split at h
    · cases h; exact hs
    · split at h
      · cases h; exact hs
      · split at h
        · exact absurd h (by simp)
        · rename_i s2 w2 hadd
          cases h
          exact StoreOK_add_item_to_topic s t _ (s2, w2) hs ⟨le_refl 0, by norm_num⟩ hadd

theorem parseCommand_pyLowerS (line : String) :
    parseCommand (pyLowerS line) = parseCommand line := by
  unfold parseCommand
  rw [pyStripS_lower_comm, pyLowerS_idem]

theorem dispatch_topic_mem (ws : List String) (t : String)
    (h : dispatch ws = .create t ∨ dispatch ws = .addTo t ∨ dispatch ws = .quiz t) :
    t ∈ ws := by
  unfold dispatch at h
  rcases h with h | h | h <;>
    (split at h <;> first
      | (cases h; simp)
      | (exact absurd h (by simp))
      | (split at h <;> first
          | (cases h; simp)
          | (exact absurd h (by simp))))

theorem pyWordsS_chars_fixed (s : String) (hs : ∀ c ∈ s.data, pyLowerChar c = c) :
    ∀ w ∈ pyWordsS s, pyLowerS w = w := by
  intro w hw
  rcases List.mem_map.mp hw with ⟨cs, hcs, rfl⟩
  apply pyLowerS_fixed_of_chars
  intro c hc
  exact pyWordsAux_chars_fixed s.data [] hs (by simp) cs hcs c hc

theorem collectContexts_terminated (ctxs : List String) (rest : List String)
    (h : ∀ c ∈ ctxs, pyStripS c ≠ "") :
    collectContexts (ctxs ++ "" :: rest) = ctxs.map pyStripS := by
  induction ctxs with
  | nil => rfl
  | cons c ctxs ih =>
    have hc : (pyStripS c != "") = true := by
      simp only [bne_iff_ne, ne_eq]
      exact h c (List.mem_cons_self _ _)
    simp only [collectContexts, List.cons_append, List.map_cons, List.takeWhile_cons, hc,
               if_true]
    have := ih (fun d hd => h d (List.mem_cons_of_mem c hd))
    simp only [collectContexts] at this
    rw [this]

theorem itemOK_applyAnswer_iterate (a : String) (n : ℕ) :
    ∀ it, itemOK it → itemOK ((fun x => applyAnswer x a)^[n] it) := by
  induction n with
  | zero => intro it h; simpa using h
  | succ n ih =>
    intro it h
    rw [Function.iterate_succ_apply]
    exact ih _ (itemOK_applyAnswer it a h)

theorem load_sorted (s : Store) (t : String) (l : List VocabularyItem)
    (h : load_vocabulary_items s t = .ok (some l)) : l.Sorted memGe := by
  unfold load_vocabulary_items at h
  cases hst : s t with
  | none => rw [hst] at h; exact absurd h (by simp [loadContent])
  | some fc =>
    rw [hst] at h
    cases fc with
    | invalid =>
      have h' : some (sortByMemDesc []) = some l := by
        injection h
      have h2 : sortByMemDesc [] = l := by injection h'
      rw [← h2]
      exact sorted_sortByMemDesc []
    | json j =>
      simp only [loadContent] at h
      split at h
      · exact absurd h (by simp)
      · split at h
        · exact absurd h (by simp)
        · rename_i items hitems
          have h' : some (sortByMemDesc items) = some l := by injection h
          have h2 : sortByMemDesc items = l := by injection h'
          rw [← h2]
          exact sorted_sortByMemDesc items

/-- C1: in a quiz, the raw answer line is compared by exact string equality
with the stored translation lowercased (no normalization of the answer, no
fuzzy matching); on a match the memorization becomes min(1, m + 0.1),
otherwise max(0, m - 0.1).  For the stored item with translation "pan" and
memorization 0.3, a full quiz run answering "pan" persists 0.4 and one
answering "leche" persists 0.2. -/
theorem C1_quiz_answer_update :
    (∀ (it : VocabularyItem) (a : String),
      applyAnswer it a =
        if a = pyLowerS it.translation then
          { it with memorization := min 1 (it.memorization + 1/10) }
        else
          { it with memorization := max 0 (it.memorization - 1/10) }) ∧
    (vocabulary_test foodStore "food" (fun _ => "pan")).map (fun out => out.2) =
      .ok ([("food", [⟨"bread", "pan", ["I eat bread"], mkRat 4 10⟩])],
           QuizResult.completed) ∧
    (vocabulary_test foodStore "food" (fun _ => "leche")).map (fun out => out.2) =
      .ok ([("food", [⟨"bread", "pan", ["I eat bread"], mkRat 2 10⟩])],
           QuizResult.completed) :=
  ⟨fun _ _ => rfl, by with_unfolding_all rfl, by with_unfolding_all rfl⟩

/-- C2: starting from any store whose loadable topics all have memorization
scores in [0, 1], each operation (createTopic, addItem, load, save, a full
quiz pass with any answers) preserves that bound, and the per-answer update
keeps any single score in [0, 1] under arbitrarily many repetitions. -/
theorem C2_memorization_clamped (s : Store) (hs : StoreOK s) :
    (∀ t, StoreOK (create_topic s t).1) ∧
    (∀ t wl tl cls out, add_item s t wl tl cls = .ok out → StoreOK out.1) ∧
    (∀ t l, load_vocabulary_items s t = .ok (some l) → itemsOK l) ∧
    (∀ t items, itemsOK items → StoreOK (dump_vocabulary_items s t items).1) ∧
    (∀ t ans out, vocabulary_test s t ans = .ok out → StoreOK out.1) ∧
    (∀ (it : VocabularyItem) (a : String) (n : ℕ), itemOK it →
      itemOK ((fun x => applyAnswer x a)^[n] it)) :=
  ⟨fun t => StoreOK_create_topic s t hs,
   fun t wl tl cls out h => StoreOK_add_item s t wl tl cls out hs h,
   fun t l h => hs t l h,
   fun t items hit => StoreOK_dump s t items hs hit,
   fun t ans out h => StoreOK_vocabulary_test s t ans out hs h,
   fun it a n h => itemOK_applyAnswer_iterate a n it h⟩

theorem C2_memorization_clamped_witness :
    StoreOK emptyStore ∧ (∀ t, StoreOK (create_topic emptyStore t).1) :=
  have hs : StoreOK emptyStore := fun t l h =>
    absurd h (by simp [load_vocabulary_items, emptyStore, loadContent])
  ⟨hs, (C2_memorization_clamped emptyStore hs).1⟩

/-- C3: for an existing topic whose stored array parses to the item list
`l` (in save order), load returns exactly the stable descending sort of
`l`: the result is a permutation of `l`, pairwise descending in
memorization, and for each score value the items holding it keep their
stored relative order. -/
theorem C3_load_sorted_stable (s : Store) (t : String) (j : Json)
    (es : List Json) (l : List VocabularyItem)
    (hst : s t = some (.json j)) (hes : pyIterElems j = .ok es)
    (hl : parseItemsList es = .ok l) :
    load_vocabulary_items s t = .ok (some (sortByMemDesc l)) ∧
    (sortByMemDesc l).Sorted memGe ∧
    (sortByMemDesc l).Perm l ∧
    (∀ v : ℚ, (sortByMemDesc l).filter (fun x => decide (x.memorization = v)) =
      l.filter (fun x => decide (x.memorization = v))) := by
  refine ⟨?_, sorted_sortByMemDesc l, perm_sortByMemDesc l,
          fun v => filter_sortByMemDesc v l⟩
  unfold load_vocabulary_items
  rw [hst]
  simp only [loadContent, hes, hl]

theorem C3_load_sorted_stable_witness :
    tieStore "animals" = some (.json (.arr tieItemsJson)) ∧
    pyIterElems (.arr tieItemsJson) = .ok tieItemsJson ∧
    parseItemsList tieItemsJson = .ok tieItems ∧
    load_vocabulary_items tieStore "animals" = .ok (some (sortByMemDesc tieItems)) ∧
    sortByMemDesc tieItems =
      [⟨"b", "tb", [], mkRat 5 10⟩, ⟨"a", "ta", [], mkRat 2 10⟩,
       ⟨"c", "tc", [], mkRat 2 10⟩] :=
  ⟨rfl, rfl, by decide,
   (C3_load_sorted_stable tieStore "animals" (.arr tieItemsJson) tieItemsJson
      tieItems rfl rfl (by decide)).1,
   by decide⟩

/-- C4: for an existing topic whose backing file content is unreadable or
not decodable JSON, load returns the empty list rather than raising; and
load reports an absent topic (returns none) exactly when the backing file
does not exist. -/
theorem C4_load_fail_soft (s : Store) (t : String) :
    (s t = some .invalid → load_vocabulary_items s t = .ok (some [])) ∧
    (load_vocabulary_items s t = .ok none ↔ s t = none) := by
  constructor
  · intro h
    unfold load_vocabulary_items
    rw [h]
    rfl
  · constructor
    · intro h
      unfold load_vocabulary_items at h
      cases hst : s t with
      | none => rfl
      | some fc =>
        rw [hst] at h
        cases fc with
        | invalid => exact absurd h (by simp [loadContent])
        | json j =>
          simp only [loadContent] at h
          split at h
          · exact absurd h (by simp)
          · split at h
            · exact absurd h (by simp)
            · exact absurd h (by simp)
    · intro h
      unfold load_vocabulary_items
      rw [h]
      rfl

theorem C4_load_fail_soft_witness :
    brokenStore "broken" = some FileContent.invalid ∧
    load_vocabulary_items brokenStore "broken" = .ok (some []) ∧
    (load_vocabulary_items brokenStore "nothere" = .ok none ↔
      brokenStore "nothere" = none) :=
  ⟨rfl, (C4_load_fail_soft brokenStore "broken").1 rfl,
   (C4_load_fail_soft brokenStore "nothere").2⟩

/-- C5: the code raises an uncaught TypeError when a stored record carries
an unknown key or lacks a required key (word or translation), instead of
skipping or defaulting the record as the specification requires; only the
optional keys contexts and memorization are defaulted when missing. -/
theorem C5_unknown_key_raises :
    load_vocabulary_items unknownKeyStore "t" = .error .typeError ∧
    load_vocabulary_items missingKeyStore "t" = .error .typeError ∧
    load_vocabulary_items optionalKeyStore "t" = .ok (some [⟨"a", "b", [], 0⟩]) :=
  ⟨by decide, by decide, by decide⟩

/-- C6 counterexample: the whitespace-only topic name " " can have an
existing backing file, yet create_topic reports the empty-name validation
error, not AlreadyExists (the emptiness check runs first). -/
theorem C6_counterexample :
    (blankNameStore " ").isSome = true ∧
    (create_topic blankNameStore " ").2 = CreateResult.validationError ∧
    (create_topic blankNameStore " ").1 = blankNameStore ∧
    CreateResult.validationError ≠ CreateResult.alreadyExists :=
  ⟨rfl, rfl, rfl, by decide⟩

/-- C6 (amended): for every topic name that is non-empty after stripping
and whose backing store exists, create_topic fails with AlreadyExists and
returns the store unchanged (no write on the error path); a
whitespace-only name fails with the validation error instead, also without
writing. -/
theorem C6_create_existing (s : Store) (t : String) (hnb : pyStripS t ≠ "")
    (hex : (s t).isSome = true) :
    create_topic s t = (s, .alreadyExists) := by
  unfold create_topic
  rw [if_neg hnb]
  have hck : check_topic_existence s t = true := hex
  rw [if_pos hck]

theorem C6_create_existing_witness :
    pyStripS "food" ≠ "" ∧ (foodStore "food").isSome = true ∧
    create_topic foodStore "food" = (foodStore, CreateResult.alreadyExists) :=
  ⟨by decide, rfl, C6_create_existing foodStore "food" (by decide) rfl⟩

/-- C7: on a topic whose load yields the non-empty list `l` (already in
descending order of the old scores), a full quiz pass performs exactly one
write, whose payload is the positional update of `l` by the given answers
— the same order as read, not a re-sort by the new scores. -/
theorem C7_quiz_single_write (s : Store) (t : String) (ans : ℕ → String)
    (l : List VocabularyItem)
    (hload : load_vocabulary_items s t = .ok (some l)) (hne : l ≠ []) :
    vocabulary_test s t ans =
      .ok ((dump_vocabulary_items s t (updateItems ans 0 l)).1,
           [(t, updateItems ans 0 l)], .completed) ∧
    l.Sorted memGe := by
  obtain ⟨fc, hfc⟩ := load_isSome_of_ok_some s t l hload
  have hck : check_topic_existence s t = true := by
    unfold check_topic_existence
    rw [hfc]
    rfl
  refine ⟨?_, load_sorted s t l hload⟩
  unfold vocabulary_test
  rw [hck]
  simp only [Bool.not_true, Bool.false_eq_true, if_false, hload, Option.getD_some,
             if_neg hne]
  unfold dump_vocabulary_items
  rw [hfc]

theorem C7_quiz_single_write_witness :
    load_vocabulary_items quizStore "q" = .ok (some quizItems) ∧
    quizItems ≠ [] ∧
    vocabulary_test quizStore "q" quizAnswers =
      .ok ((dump_vocabulary_items quizStore "q" (updateItems quizAnswers 0 quizItems)).1,
           [("q", updateItems quizAnswers 0 quizItems)], .completed) ∧
    updateItems quizAnswers 0 quizItems =
      [⟨"w1", "t1", [], mkRat 4 10⟩, ⟨"w2", "t2", [], mkRat 55 100⟩] :=
  ⟨by decide, by decide,
   (C7_quiz_single_write quizStore "q" quizAnswers quizItems (by decide) (by decide)).1,
   by with_unfolding_all rfl⟩

/-- C8: on an existing topic that loads as `l0`, adding an item whose word
and translation lines strip to non-empty strings, with non-blank context
lines followed by the terminating blank line, succeeds; a subsequent load
contains the new item with memorization 0 and with exactly the entered
context lines (stripped) in entry order, none dropped. -/
theorem C8_add_item_roundtrip (s : Store) (t : String) (wl tl : String)
    (ctxs : List String) (l0 : List VocabularyItem)
    (hload : load_vocabulary_items s t = .ok (some l0))
    (hw : pyStripS wl ≠ "") (ht : pyStripS tl ≠ "")
    (hc : ∀ c ∈ ctxs, pyStripS c ≠ "") :
    ∃ s2, add_item s t wl tl (ctxs ++ [""]) = .ok (s2, .added) ∧
      load_vocabulary_items s2 t =
        .ok (some (sortByMemDesc
          (l0 ++ [⟨pyStripS wl, pyStripS tl, ctxs.map pyStripS, 0⟩]))) ∧
      (⟨pyStripS wl, pyStripS tl, ctxs.map pyStripS, 0⟩ : VocabularyItem) ∈
        sortByMemDesc (l0 ++ [⟨pyStripS wl, pyStripS tl, ctxs.map pyStripS, 0⟩]) ∧
      (⟨pyStripS wl, pyStripS tl, ctxs.map pyStripS, 0⟩ : VocabularyItem).memorization
        = 0 := by
  obtain ⟨fc, hfc⟩ := load_isSome_of_ok_some s t l0 hload
  have hck : check_topic_existence s t = true := by
    unfold check_topic_existence
    rw [hfc]
    rfl
  have hctx : collectContexts (ctxs ++ [""]) = ctxs.map pyStripS :=
    collectContexts_terminated ctxs [] hc
  refine ⟨updateStore s t (.json (.arr
    ((l0 ++ [(⟨pyStripS wl, pyStripS tl, ctxs.map pyStripS, 0⟩ : VocabularyItem)]).map
      serializeItem))),
    ?_, ?_, ?_, rfl⟩
  · unfold add_item
    rw [hck]
    simp only [Bool.not_true, Bool.false_eq_true, if_false, if_neg hw, if_neg ht, hctx]
    unfold add_item_to_topic
    rw [hload]
    simp only [Option.getD_some]
    unfold dump_vocabulary_items
    rw [hfc]
  · rw [load_updateStore, if_pos rfl]
    exact loadContent_serialized _
  · exact (perm_sortByMemDesc _).mem_iff.mpr (by simp)

theorem C8_add_item_roundtrip_witness :
    load_vocabulary_items foodStore "food" =
      .ok (some [⟨"bread", "pan", ["I eat bread"], mkRat 3 10⟩]) ∧
    pyStripS " cake " ≠ "" ∧ pyStripS "torta" ≠ "" ∧
    (∀ c ∈ ["a b", " c "], pyStripS c ≠ "") ∧
    (∃ s2, add_item foodStore "food" " cake " "torta" (["a b", " c "] ++ [""]) =
        .ok (s2, .added) ∧
      load_vocabulary_items s2 "food" =
        .ok (some (sortByMemDesc
          ([⟨"bread", "pan", ["I eat bread"], mkRat 3 10⟩] ++
            [⟨pyStripS " cake ", pyStripS "torta", ["a b", " c "].map pyStripS, 0⟩]))) ∧
      (⟨pyStripS " cake ", pyStripS "torta", ["a b", " c "].map pyStripS, 0⟩ :
          VocabularyItem) ∈
        sortByMemDesc ([⟨"bread", "pan", ["I eat bread"], mkRat 3 10⟩] ++
          [⟨pyStripS " cake ", pyStripS "torta", ["a b", " c "].map pyStripS, 0⟩]) ∧
      (⟨pyStripS " cake ", pyStripS "torta", ["a b", " c "].map pyStripS, 0⟩ :
          VocabularyItem).memorization = 0) :=
  ⟨by decide, by decide, by decide, by decide,
   C8_add_item_roundtrip foodStore "food" " cake " "torta" ["a b", " c "]
     [⟨"bread", "pan", ["I eat bread"], mkRat 3 10⟩]
     (by decide) (by decide) (by decide) (by decide)⟩

/-- C9 counterexample: the command line "cr" with no argument is reported
with the invalid-command message, not with the "not enough arguments"
message the specification states. -/
theorem C9_counterexample :
    handle_user_input_msg "cr" =
      some "Invalid command. Type \x27help\x27 for options." ∧
    handle_user_input_msg "cr" ≠ some "Not enough arguments for the command" :=
  ⟨by decide, by decide⟩

/-- C9 (amended): a command line that parses to exactly the word cr, add
or voc with no argument falls through the guarded dispatch to the invalid-
command branch: the REPL prints the invalid-command message pointing at
help and continues (the IndexError handler that would print "Not
enough arguments for the command" is unreachable for these commands). -/
theorem C9_missing_argument (line : String) (c : String)
    (hw : pyWordsS (pyLowerS (pyStripS line)) = [c])
    (hc : c = "cr" ∨ c = "add" ∨ c = "voc") :
    parseCommand line = .invalid ∧
    handle_user_input_msg line =
      some "Invalid command. Type \x27help\x27 for options." := by
  have hp : parseCommand line = .invalid := by
    unfold parseCommand
    by_cases hs0 : pyLowerS (pyStripS line) = ""
    · rw [hs0] at hw
      have hnil : pyWordsS "" = [] := rfl
      rw [hnil] at hw
      exact List.noConfusion hw
    · rw [if_neg hs0, hw]
      rcases hc with rfl | rfl | rfl <;> rfl
  refine ⟨hp, ?_⟩
  unfold handle_user_input_msg
  rw [hp]

theorem C9_missing_argument_witness :
    pyWordsS (pyLowerS (pyStripS "cr")) = ["cr"] ∧ parseCommand "cr" = .invalid :=
  ⟨by decide, (C9_missing_argument "cr" "cr" (by decide) (Or.inl rfl)).1⟩

/-- C10: the whole input line is lowercased before parsing: parsing is
invariant under pre-lowercasing the line, every topic argument produced by
the parser is already lowercase, and "cr Food" parses to the same create
command on topic "food" as "cr food". -/
theorem C10_lowercased_parsing :
    (∀ line, parseCommand (pyLowerS line) = parseCommand line) ∧
    (∀ line t, (parseCommand line = .create t ∨ parseCommand line = .addTo t ∨
        parseCommand line = .quiz t) → pyLowerS t = t) ∧
    parseCommand "cr Food" = .create "food" ∧
    parseCommand "cr food" = .create "food" := by
  refine ⟨parseCommand_pyLowerS, ?_, by decide, by decide⟩
  intro line t h
  unfold parseCommand at h
  by_cases hs0 : pyLowerS (pyStripS line) = ""
  · rw [if_pos hs0] at h
    rcases h with h | h | h <;> exact absurd h (by simp)
  · rw [if_neg hs0] at h
    have ht := dispatch_topic_mem _ t h
    refine pyWordsS_chars_fixed _ ?_ t ht
    intro c hc
    rw [data_pyLowerS] at hc
    simp only [pyLowerL] at hc
    rcases List.mem_map.mp hc with ⟨d, _, rfl⟩
    exact pyLowerChar_idem d

theorem C10_lowercased_parsing_witness :
    parseCommand "cr Food" = Command.create "food" ∧ pyLowerS "food" = "food" :=
  ⟨by decide,
   C10_lowercased_parsing.2.1 "cr Food" "food" (Or.inl (by decide))⟩
